import Mathlib

/-!
Verification of the focus-driven pane state machine in `app/vis.go`
(go_bubbletea_TUI_sample).

The Go program is a bubbletea TUI: a `model` with four list panes and an
output viewport, an `Update` function dispatching on key and resize
messages, a network side (`connectToServer`, `listenToServer`) and a
custom list-item renderer (`customDelegate.Render`).

Shallow embedding conventions:
* `list.Model` (the bubbles list) is embedded as `ListModel`, keeping the
  fields the program reads or writes: `Title`, `Items()`, `Index()`,
  width/height, and the `focused` flag of the `customDelegate` installed
  by `createList`/`SetDelegate`.
* `viewport.Model` is embedded by the fields the program uses: its
  content string (`SetContent`/`View`) and its width/height.  Scrolling
  (`viewport.Update` on arrow keys) does not change the content.
* `net.Conn` is embedded as an oracle for the one operation the program
  performs on the write connection: `Write`, which either succeeds or
  fails with an error string.
* Go runtime panics (out-of-range slice indexing) are modelled by
  `Option`: a step returns `none` when the source would panic.
* Machine integers (`int` widths/heights) are `Int`; Go `/` on int is
  truncated division, i.e. `Int.tdiv`.
-/

/-- `menuItem` (vis.go lines 46-53): title, optional description, and the
selection flag toggled by the space key.  `FilterValue()` returns the title. -/
structure menuItem where
  title : String
  desc : String
  selected : Bool
deriving DecidableEq, Repr

/-- The bubbles `list.Model` as used by this program: the item list, the
cursor (`Index()`), the title, the dimensions, and the `focused` flag of the
`customDelegate` installed on the list. -/
structure ListModel where
  title : String
  items : List menuItem
  index : Nat
  width : Int
  height : Int
  delegateFocused : Bool
deriving DecidableEq, Repr

/-- `pane` (vis.go lines 29-34). -/
structure pane where
  title : String
  items : ListModel
  isMenu : Bool
  focused : Bool
deriving DecidableEq, Repr

/-- The write connection `conn9001`, reduced to the one operation the event
loop performs on it: `Write`, which either succeeds (`writeErr = none`) or
returns an error string. -/
structure Conn where
  writeErr : Option String
deriving DecidableEq, Repr

/-- `model` (vis.go lines 17-27).  The `outputPane : viewport.Model` is
embedded by its content and dimensions; `mu : sync.Mutex` is treated in the
lock-discipline section below. -/
structure model where
  focusIndex : Nat
  topPanes : List pane
  outputContent : String
  outputWidth : Int
  outputHeight : Int
  outputPaneFocused : Bool
  conn9001 : Option Conn
  conn9002 : Option Unit
  width : Int
  height : Int
deriving DecidableEq, Repr

def port9001 : String := "localhost:9001"
def port9002 : String := "localhost:9002"

/-- `createList` (vis.go lines 116-137): items become unselected `menuItem`s,
the list height is the item count capped at `height`, the width is 20, and
the delegate's `focused` flag is the `focused` argument. -/
def createList (title : String) (items : List String) (height : Nat) (focused : Bool) : ListModel :=
  let itemList := items.map fun s => ({ title := s, desc := "", selected := false } : menuItem)
  let listHeight := if items.length > height then height else items.length
  { title := title, items := itemList, index := 0, width := 20,
    height := (listHeight : Int), delegateFocused := focused }

/-- `initialModel` (vis.go lines 97-114).  Fields not listed in the Go
composite literal get their zero values: `outputPaneFocused = false`,
`conn9001 = conn9002 = nil`, `width = height = 0`. -/
def initialModel : model :=
  let pane1ItemList := ["Option A", "Option B", "Option C"]
  let pane2ItemList := ["Option X", "Option Y", "Option Z"]
  let commands := ["Cmd 1", "Cmd 2", "Cmd 3", "Exit"]
  let pane4Itemlist := ["Opt 1", "Opt 2", "Opt 3"]
  let panes : List pane :=
    [ { title := "Pane 1", items := createList "Pane 1" pane1ItemList 10 true,  isMenu := true,  focused := true },
      { title := "Pane 2", items := createList "Pane 2" pane2ItemList 10 false, isMenu := true,  focused := false },
      { title := "Commands", items := createList "Commands" commands 10 false,  isMenu := false, focused := false },
      { title := "Pane 4", items := createList "Pane 4" pane4Itemlist 10 false, isMenu := true,  focused := false } ]
  { focusIndex := 0, topPanes := panes,
    outputContent := "Welcome to the TUI!", outputWidth := 100, outputHeight := 20,
    outputPaneFocused := false, conn9001 := none, conn9002 := none,
    width := 0, height := 0 }

/-- `updatePaneDelegates` (vis.go lines 140-144): every pane's delegate gets
`focused: i == m.focusIndex`. -/
def updatePaneDelegates (m : model) : model :=
  { m with topPanes := m.topPanes.enum.map fun pr =>
      { pr.2 with items := { pr.2.items with delegateFocused := decide (pr.1 = m.focusIndex) } } }

/-- The bubbles `list.Model.Update` for the keys this program forwards to a
list: the default keymap moves the cursor up on up/k and down on down/j,
clamped to the item range; filtering, paging beyond one page, and help are
disabled by `createList`, and no other forwarded key moves the cursor. -/
def listUpdate (s : String) (l : ListModel) : ListModel :=
  if s = "up" ∨ s = "k" then { l with index := l.index - 1 }
  else if s = "down" ∨ s = "j" then { l with index := min (l.index + 1) (l.items.length - 1) }
  else l

/-- In-place field assignment `l[i] = f l[i]` on a pane slice, used where the
source has already checked `i < len`. -/
def modifyPane (l : List pane) (i : Nat) (f : pane → pane) : List pane :=
  match l.get? i with
  | some p => l.set i (f p)
  | none => l

/-- The fallthrough at the end of `Update` (vis.go lines 279-288): forward
the message to the focused component.  A list pane runs the bubbles list
update; the output viewport only scrolls, leaving its content unchanged.
`k = none` is a non-key message (e.g. the resize message), which moves no
cursor. -/
def forwardFocused (m : model) (k : Option String) : model :=
  if m.focusIndex < m.topPanes.length then
    { m with topPanes := modifyPane m.topPanes m.focusIndex (fun p =>
        { p with items := match k with | some s => listUpdate s p.items | none => p.items }) }
  else m

/-- The guarded selection toggle of the space-key branch (vis.go lines
236-243): `focusIndex < len(topPanes) && isMenu` guards the toggle;
`items[index]` on an out-of-range cursor would panic (`none`). -/
def toggleStep (m : model) : Option model :=
  match m.topPanes.get? m.focusIndex with
  | some p =>
    if p.isMenu then
      match p.items.items.get? p.items.index with
      | some it =>
        some { m with topPanes := (m.topPanes.set m.focusIndex
          { p with items := { p.items with
              items := p.items.items.set p.items.index { it with selected := !it.selected } } }) }
      | none => none
    else some m
  | none => some m

/-- Result of one `Update` call: the next model, the strings successfully
written on `conn9001` by this step, and whether `tea.Quit` was returned. -/
structure StepResult where
  state : model
  sent : List String
  quit : Bool
deriving DecidableEq, Repr

/-- The messages `Update` dispatches on: `tea.KeyMsg` (by its `String()`)
and `tea.WindowSizeMsg`. -/
inductive Msg where
  | key (s : String)
  | size (w h : Int)
deriving DecidableEq, Repr

/-- The focus-flag part of the tab branch (vis.go lines 217-231): advance
`focusIndex` cyclically over the four panes plus the output pane, clear the
previously focused entity's flag, set the new one's. -/
def tabFlags (m : model) : model :=
  let prev := m.focusIndex
  let fi := (m.focusIndex + 1) % (m.topPanes.length + 1)
  let m1 := { m with focusIndex := fi }
  let m2 := if prev < m1.topPanes.length
    then { m1 with topPanes := modifyPane m1.topPanes prev (fun p => { p with focused := false }) }
    else { m1 with outputPaneFocused := false }
  if fi < m2.topPanes.length
    then { m2 with topPanes := modifyPane m2.topPanes fi (fun p => { p with focused := true }) }
    else { m2 with outputPaneFocused := true }

/-- The `tea.WindowSizeMsg` branch (vis.go lines 197-214): store the new
viewport size, cap each pane's list height at `(height/2)-2`, and resize the
output pane. -/
def resizeStep (m : model) (w h : Int) : model :=
  let m1 := { m with width := w, height := h }
  let paneHeight := Int.tdiv m1.height 2 - 2
  let m2 := { m1 with topPanes := (m1.topPanes.map fun (p : pane) =>
    let numItems : Int := p.items.items.length
    let displayHeight := if numItems < paneHeight then numItems else paneHeight
    { p with items := { p.items with height := displayHeight } }) }
  { m2 with outputWidth := m2.width - 2, outputHeight := Int.tdiv m2.height 2 }

/-- `model.Update` (vis.go lines 195-289), transcribed branch by branch.
`none` models a runtime panic.  Notable transcription points:
* the space branch forwards `m.topPanes[m.focusIndex].items.Update(msg)`
  on line 245 OUTSIDE the `focusIndex < len(topPanes)` guard, so it
  panics when the output pane is focused;
* the enter branch reads `Items()[index]` without an emptiness guard;
* a write error appends to the output pane content without the mutex
  (see the lock-discipline section);
* every key branch other than space/up-down/q falls through to the
  guarded forwarding at the bottom of the function. -/
def Update (m : model) (msg : Msg) : Option StepResult :=
  match msg with
  | .size w h =>
    some ⟨forwardFocused (resizeStep m w h) none, [], false⟩
  | .key s =>
    if s = "tab" then
      some ⟨forwardFocused (updatePaneDelegates (tabFlags m)) (some s), [], false⟩
    else if s = " " then
      match toggleStep m with
      | none => none
      | some m1 =>
        match m1.topPanes.get? m1.focusIndex with
        | some p => some ⟨{ m1 with topPanes := (m1.topPanes.set m1.focusIndex
            { p with items := listUpdate s p.items }) }, [], false⟩
        | none => none
    else if s = "up" ∨ s = "down" then
      if m.focusIndex < m.topPanes.length then
        some ⟨{ m with topPanes := modifyPane m.topPanes m.focusIndex (fun p =>
          { p with items := listUpdate s p.items }) }, [], false⟩
      else if m.outputPaneFocused then
        some ⟨m, [], false⟩
      else some ⟨forwardFocused m (some s), [], false⟩
    else if s = "enter" then
      match m.topPanes.get? m.focusIndex with
      | some p =>
        if p.isMenu = false then
          match p.items.items.get? p.items.index with
          | none => none
          | some it =>
            if it.title = "Exit" then some ⟨m, [], true⟩
            else match m.conn9001 with
              | none => some ⟨forwardFocused m (some s), [], false⟩
              | some c =>
                match c.writeErr with
                | none => some ⟨forwardFocused m (some s), [it.title ++ "\n"], false⟩
                | some e =>
                  some ⟨forwardFocused
                    { m with outputContent := m.outputContent ++ "\nError sending command: " ++ e }
                    (some s), [], false⟩
        else some ⟨forwardFocused m (some s), [], false⟩
      | none => some ⟨forwardFocused m (some s), [], false⟩
    else if s = "q" then some ⟨m, [], true⟩
    else some ⟨forwardFocused m (some s), [], false⟩

/-- Run a message sequence through `Update`; `none` once any step panics. -/
def run (m : model) (msgs : List Msg) : Option model :=
  match msgs with
  | [] => some m
  | msg :: rest =>
    match Update m msg with
    | none => none
    | some r => run r.state rest

/-- The states of the bubbletea event loop.  `tea.NewProgram(initialModel())`
starts from `initialModel`; `Init` has a VALUE receiver, so the
`connectToServer` goroutine it launches mutates a discarded copy and the
loop's own state after `Init` is still `initialModel` (in particular both
connections stay `nil` there).  Every further state is produced by `Update`. -/
inductive Reachable : model → Prop where
  | init : Reachable initialModel
  | step {m : model} {msg : Msg} {r : StepResult} :
      Reachable m → Update m msg = some r → Reachable r.state

/-! ### Focus and network invariants over the reachable states -/

/-- The pane focus flags followed by the output-pane flag, in focus order. -/
def flagsList (m : model) : List Bool := m.topPanes.map pane.focused ++ [m.outputPaneFocused]

/-- The parts of the state that determine focus: `focusIndex`, the output
flag, and the panes' `focused` flags. -/
def focusSig (m : model) : Nat × Bool × List Bool :=
  (m.focusIndex, m.outputPaneFocused, m.topPanes.map pane.focused)

/-- Focus invariant: four panes, `focusIndex ≤ 4`, and the five focus flags
are exactly the indicator of `focusIndex`. -/
def FocusInv (m : model) : Prop :=
  m.topPanes.length = 4 ∧ m.focusIndex ≤ 4 ∧
    flagsList m = (List.range 5).map fun i => decide (m.focusIndex = i)

/-- Network invariant: both connections are nil and the output content is
still the initial greeting. -/
def NetInv (m : model) : Prop :=
  m.conn9001 = none ∧ m.conn9002 = none ∧ m.outputContent = "Welcome to the TUI!"

lemma getElem?_some_lt {α : Type} {l : List α} {i : Nat} {a : α}
    (h : l[i]? = some a) : i < l.length := by
  by_contra hge
  rw [List.getElem?_eq_none (le_of_not_lt hge)] at h
  exact Option.noConfusion h

lemma set_get_same {α : Type} {l : List α} {i : Nat} {a : α}
    (h : l.get? i = some a) : l.set i a = l := by
  rw [List.get?_eq_getElem?] at h
  apply List.ext_getElem?
  intro n
  rw [List.getElem?_set]
  by_cases hin : i = n
  · subst hin
    simp [getElem?_some_lt h, h]
  · simp [hin]

lemma map_focused_set {l : List pane} {i : Nat} {p : pane} (p' : pane)
    (h : l.get? i = some p) (hf : p'.focused = p.focused) :
    (l.set i p').map pane.focused = l.map pane.focused := by
  rw [List.get?_eq_getElem?] at h
  apply List.ext_getElem?
  intro n
  simp only [List.getElem?_map, List.getElem?_set]
  by_cases hin : i = n
  · subst hin
    simp [getElem?_some_lt h, h, hf]
  · simp [hin]

lemma map_focused_modifyPane (l : List pane) (i : Nat) (f : pane → pane)
    (hf : ∀ p, (f p).focused = p.focused) :
    (modifyPane l i f).map pane.focused = l.map pane.focused := by
  unfold modifyPane
  cases h : l.get? i with
  | none => rfl
  | some p => exact map_focused_set (f p) h (hf p)

lemma modifyPane_length (l : List pane) (i : Nat) (f : pane → pane) :
    (modifyPane l i f).length = l.length := by
  unfold modifyPane
  cases h : l.get? i <;> simp

lemma focusSig_forwardFocused (m : model) (k : Option String) :
    focusSig (forwardFocused m k) = focusSig m := by
  unfold forwardFocused
  split
  · unfold focusSig
    simp only
    rw [map_focused_modifyPane]
    intro p
    rfl
  · rfl

lemma focusSig_updatePaneDelegates (m : model) :
    focusSig (updatePaneDelegates m) = focusSig m := by
  unfold focusSig
  rw [Prod.mk.injEq, Prod.mk.injEq]
  refine ⟨rfl, rfl, ?_⟩
  unfold updatePaneDelegates
  apply List.ext_getElem?
  intro n
  simp only [List.getElem?_map, List.getElem?_enum]
  cases m.topPanes[n]? <;> rfl

lemma FocusInv_of_sig {m m' : model} (h : focusSig m' = focusSig m) :
    FocusInv m → FocusInv m' := by
  unfold focusSig at h
  rw [Prod.mk.injEq, Prod.mk.injEq] at h
  obtain ⟨h1, h2, h3⟩ := h
  intro ⟨hl, hf, hfl⟩
  refine ⟨?_, h1 ▸ hf, ?_⟩
  · have := congrArg List.length h3
    simpa [hl] using this
  · unfold flagsList at hfl ⊢
    rw [h1, h2, h3, hfl]

lemma NetInv_forwardFocused (m : model) (k : Option String) :
    (forwardFocused m k).conn9001 = m.conn9001 ∧
    (forwardFocused m k).conn9002 = m.conn9002 ∧
    (forwardFocused m k).outputContent = m.outputContent := by
  unfold forwardFocused
  split <;> exact ⟨rfl, rfl, rfl⟩

lemma list_length_four {α : Type} :
    ∀ (l : List α), l.length = 4 → ∃ a b c d, l = [a, b, c, d]
  | [a, b, c, d], _ => ⟨a, b, c, d, rfl⟩

lemma tabFlags_fields (m : model) :
    (tabFlags m).conn9001 = m.conn9001 ∧ (tabFlags m).conn9002 = m.conn9002 ∧
    (tabFlags m).outputContent = m.outputContent := by
  unfold tabFlags
  refine ⟨?_, ?_, ?_⟩ <;> (dsimp only; split <;> split <;> rfl)

lemma resizeStep_fields (m : model) (w h : Int) :
    (resizeStep m w h).conn9001 = m.conn9001 ∧ (resizeStep m w h).conn9002 = m.conn9002 ∧
    (resizeStep m w h).outputContent = m.outputContent := by
  exact ⟨rfl, rfl, rfl⟩

lemma updatePaneDelegates_fields (m : model) :
    (updatePaneDelegates m).conn9001 = m.conn9001 ∧ (updatePaneDelegates m).conn9002 = m.conn9002 ∧
    (updatePaneDelegates m).outputContent = m.outputContent := by
  exact ⟨rfl, rfl, rfl⟩

lemma focusSig_resizeStep (m : model) (w h : Int) :
    focusSig (resizeStep m w h) = focusSig m := by
  unfold resizeStep focusSig
  rw [Prod.mk.injEq, Prod.mk.injEq]
  refine ⟨rfl, rfl, ?_⟩
  apply List.ext_getElem?
  intro n
  simp only [List.getElem?_map]
  cases m.topPanes[n]? <;> rfl

lemma toggleStep_some {m m1 : model} (h : toggleStep m = some m1) :
    focusSig m1 = focusSig m ∧ m1.conn9001 = m.conn9001 ∧ m1.conn9002 = m.conn9002 ∧
    m1.outputContent = m.outputContent := by
  unfold toggleStep at h
  split at h
  · next p hp =>
    split at h
    · split at h
      · next it hit =>
        injection h with h'
        subst h'
        refine ⟨?_, rfl, rfl, rfl⟩
        unfold focusSig
        rw [Prod.mk.injEq, Prod.mk.injEq]
        exact ⟨rfl, rfl, map_focused_set _ hp rfl⟩
      · exact Option.noConfusion h
    · injection h with h'
      subst h'
      exact ⟨rfl, rfl, rfl, rfl⟩
  · injection h with h'
    subst h'
    exact ⟨rfl, rfl, rfl, rfl⟩

/-- Keys that bubbles' list update ignores leave the list unchanged. -/
lemma listUpdate_id {s : String} (h1 : ¬(s = "up" ∨ s = "k")) (h2 : ¬(s = "down" ∨ s = "j"))
    (l : ListModel) : listUpdate s l = l := by
  unfold listUpdate
  rw [if_neg h1, if_neg h2]

lemma forwardFocused_id {m : model} {s : String}
    (h1 : ¬(s = "up" ∨ s = "k")) (h2 : ¬(s = "down" ∨ s = "j")) :
    forwardFocused m (some s) = m := by
  unfold forwardFocused modifyPane
  split
  · cases hp : m.topPanes.get? m.focusIndex with
    | none => rfl
    | some p =>
      simp only [listUpdate_id h1 h2]
      rw [set_get_same hp]
  · rfl
lemma FocusInv_tabFlags {m : model} (hinv : FocusInv m) : FocusInv (tabFlags m) := by
  obtain ⟨hlen, hfi, hflags⟩ := hinv
  obtain ⟨p0, p1, p2, p3, hl⟩ := list_length_four _ hlen
  have hr : List.range 5 = [0, 1, 2, 3, 4] := rfl
  unfold flagsList at hflags
  rw [hl, hr] at hflags
  simp only [List.map_cons, List.map_nil, List.cons_append, List.nil_append,
    List.cons.injEq, and_true] at hflags
  obtain ⟨e0, e1, e2, e3, e4⟩ := hflags
  unfold FocusInv flagsList tabFlags
  dsimp only
  rw [hl]
  generalize hfieq : m.focusIndex = k at hfi e0 e1 e2 e3 e4 ⊢
  interval_cases k <;>
    simp_all [modifyPane, List.get?, hr]

/-- One `Update` step preserves the connection fields; with no write
connection it can neither write nor change the output content; and it
preserves the focus invariant. -/
lemma update_preserve {m : model} {msg : Msg} {r : StepResult}
    (h : Update m msg = some r) :
    r.state.conn9001 = m.conn9001 ∧ r.state.conn9002 = m.conn9002 ∧
    (m.conn9001 = none → r.state.outputContent = m.outputContent ∧ r.sent = []) ∧
    (FocusInv m → FocusInv r.state) := by
  cases msg with
  | size w hh =>
    simp only [Update] at h
    injection h with h'
    subst h'
    obtain ⟨c1, c2, oc⟩ := NetInv_forwardFocused (resizeStep m w hh) none
    refine ⟨?_, ?_, ?_, ?_⟩
    · rw [c1]; exact (resizeStep_fields m w hh).1
    · rw [c2]; exact (resizeStep_fields m w hh).2.1
    · intro _; refine ⟨?_, rfl⟩
      rw [oc]; exact (resizeStep_fields m w hh).2.2
    · intro hinv
      exact FocusInv_of_sig (by rw [focusSig_forwardFocused, focusSig_resizeStep]) hinv
  | key s =>
    simp only [Update] at h
    split at h
    · -- tab
      injection h with h'
      subst h'
      obtain ⟨c1, c2, oc⟩ := NetInv_forwardFocused (updatePaneDelegates (tabFlags m)) (some s)
      refine ⟨?_, ?_, ?_, ?_⟩
      · rw [c1]; exact (tabFlags_fields m).1
      · rw [c2]; exact (tabFlags_fields m).2.1
      · intro _; refine ⟨?_, rfl⟩
        rw [oc]; exact (tabFlags_fields m).2.2
      · intro hinv
        exact FocusInv_of_sig
          (by rw [focusSig_forwardFocused, focusSig_updatePaneDelegates]) (FocusInv_tabFlags hinv)
    · split at h
      · -- space
        split at h
        · exact Option.noConfusion h
        · next m1 hm1 =>
          split at h
          · next p hp =>
            injection h with h'
            subst h'
            obtain ⟨sig1, c1, c2, oc⟩ := toggleStep_some hm1
            refine ⟨c1, c2, fun _ => ⟨oc, rfl⟩, ?_⟩
            intro hinv
            refine FocusInv_of_sig ?_ hinv
            rw [← sig1]
            unfold focusSig
            rw [Prod.mk.injEq, Prod.mk.injEq]
            exact ⟨rfl, rfl, map_focused_set _ hp rfl⟩
          · exact Option.noConfusion h
      · split at h
        · -- up/down
          split at h
          · injection h with h'
            subst h'
            refine ⟨rfl, rfl, fun _ => ⟨rfl, rfl⟩, ?_⟩
            intro hinv
            refine FocusInv_of_sig ?_ hinv
            unfold focusSig
            rw [Prod.mk.injEq, Prod.mk.injEq]
            refine ⟨rfl, rfl, ?_⟩
            exact map_focused_modifyPane _ _ _ (fun p => rfl)
          · split at h
            · injection h with h'
              subst h'
              exact ⟨rfl, rfl, fun _ => ⟨rfl, rfl⟩, fun hinv => hinv⟩
            · injection h with h'
              subst h'
              obtain ⟨c1, c2, oc⟩ := NetInv_forwardFocused m (some s)
              exact ⟨c1, c2, fun _ => ⟨oc, rfl⟩, fun hinv =>
                FocusInv_of_sig (focusSig_forwardFocused m (some s)) hinv⟩
        · split at h
          · -- enter
            split at h
            · next p hp =>
              split at h
              · split at h
                · exact Option.noConfusion h
                · next it hit =>
                  split at h
                  · injection h with h'
                    subst h'
                    exact ⟨rfl, rfl, fun _ => ⟨rfl, rfl⟩, fun hinv => hinv⟩
                  · split at h
                    · -- conn9001 = nil: silent skip
                      next hc =>
                      injection h with h'
                      subst h'
                      obtain ⟨c1, c2, oc⟩ := NetInv_forwardFocused m (some s)
                      exact ⟨c1, c2, fun _ => ⟨oc, rfl⟩, fun hinv =>
                        FocusInv_of_sig (focusSig_forwardFocused m (some s)) hinv⟩
                    · next c hc =>
                      split at h
                      · -- successful write
                        injection h with h'
                        subst h'
                        obtain ⟨c1, c2, oc⟩ := NetInv_forwardFocused m (some s)
                        refine ⟨c1, c2, ?_, fun hinv =>
                          FocusInv_of_sig (focusSig_forwardFocused m (some s)) hinv⟩
                        intro hnone
                        rw [hnone] at hc
                        exact Option.noConfusion hc
                      · -- failed write: output append
                        injection h with h'
                        subst h'
                        refine ⟨?_, ?_, ?_, ?_⟩
                        · exact (NetInv_forwardFocused _ (some s)).1
                        · exact (NetInv_forwardFocused _ (some s)).2.1
                        · intro hnone
                          rw [hnone] at hc
                          exact Option.noConfusion hc
                        · intro hinv
                          exact FocusInv_of_sig
                            (by rw [focusSig_forwardFocused]; rfl) hinv
              · injection h with h'
                subst h'
                obtain ⟨c1, c2, oc⟩ := NetInv_forwardFocused m (some s)
                exact ⟨c1, c2, fun _ => ⟨oc, rfl⟩, fun hinv =>
                  FocusInv_of_sig (focusSig_forwardFocused m (some s)) hinv⟩
            · injection h with h'
              subst h'
              obtain ⟨c1, c2, oc⟩ := NetInv_forwardFocused m (some s)
              exact ⟨c1, c2, fun _ => ⟨oc, rfl⟩, fun hinv =>
                FocusInv_of_sig (focusSig_forwardFocused m (some s)) hinv⟩
          · split at h
            · -- q
              injection h with h'
              subst h'
              exact ⟨rfl, rfl, fun _ => ⟨rfl, rfl⟩, fun hinv => hinv⟩
            · -- any other key
              injection h with h'
              subst h'
              obtain ⟨c1, c2, oc⟩ := NetInv_forwardFocused m (some s)
              exact ⟨c1, c2, fun _ => ⟨oc, rfl⟩, fun hinv =>
                FocusInv_of_sig (focusSig_forwardFocused m (some s)) hinv⟩

lemma inv_initial : FocusInv initialModel ∧ NetInv initialModel := by
  constructor
  · refine ⟨rfl, by decide, ?_⟩
    decide
  · exact ⟨rfl, rfl, rfl⟩

lemma reachable_inv {m : model} (h : Reachable m) : FocusInv m ∧ NetInv m := by
  induction h with
  | init => exact inv_initial
  | step hr hu ih =>
    obtain ⟨c1, c2, hout, hfoc⟩ := update_preserve hu
    obtain ⟨hf, n1, n2, n3⟩ := ih
    refine ⟨hfoc hf, ?_, ?_, ?_⟩
    · rw [c1, n1]
    · rw [c2, n2]
    · rw [(hout n1).1, n3]

/-! ### Claim theorems -/

/-- Claim C1: starting from the initial model and after any sequence of
keyboard and resize events processed by `Update`, exactly one of the list
panes' `focused` flags and the `outputPaneFocused` flag is true, and the
true flag is the one designated by `focusIndex` (index `N = len(topPanes)`
meaning the output pane). -/
theorem focus_exclusivity {m : model} (h : Reachable m) :
    (flagsList m).count true = 1 ∧
    (∀ i p, m.topPanes.get? i = some p → (p.focused = true ↔ m.focusIndex = i)) ∧
    (m.outputPaneFocused = true ↔ m.focusIndex = m.topPanes.length) := by
  obtain ⟨⟨hlen, hfi, hflags⟩, -⟩ := reachable_inv h
  obtain ⟨p0, p1, p2, p3, hl⟩ := list_length_four _ hlen
  have hr : List.range 5 = [0, 1, 2, 3, 4] := rfl
  have hflags' := hflags
  unfold flagsList at hflags'
  rw [hl, hr] at hflags'
  simp only [List.map_cons, List.map_nil, List.cons_append, List.nil_append,
    List.cons.injEq, and_true] at hflags'
  obtain ⟨e0, e1, e2, e3, e4⟩ := hflags'
  refine ⟨?_, ?_, ?_⟩
  · rw [hflags, hr]
    generalize m.focusIndex = k at hfi ⊢
    interval_cases k <;> decide
  · intro i p hp
    rw [hl] at hp
    rcases i with _ | _ | _ | _ | i <;> simp only [List.get?] at hp
    · injection hp with hp'; subst hp'; simp [e0]
    · injection hp with hp'; subst hp'; simp [e1]
    · injection hp with hp'; subst hp'; simp [e2]
    · injection hp with hp'; subst hp'; simp [e3]
    · exact Option.noConfusion hp
  · rw [hlen]
    simp [e4]

/-- Witness for C1 at the initial model. -/
theorem focus_exclusivity_witness :
    (flagsList initialModel).count true = 1 ∧
    (∀ i p, initialModel.topPanes.get? i = some p →
      (p.focused = true ↔ initialModel.focusIndex = i)) ∧
    (initialModel.outputPaneFocused = true ↔
      initialModel.focusIndex = initialModel.topPanes.length) :=
  focus_exclusivity Reachable.init

/-- Claim C10: `Init` has a value receiver and hands `connectToServer` a
copy of the model that is discarded, so in every state reachable by the
event loop's `Update` from the initial model both connections are nil, the
output-pane content was never modified by the background reader (it is
still the initial greeting, so received lines never appear in the rendered
frame), and no step — in particular no confirm keypress — ever writes to
the network. -/
theorem init_value_receiver_no_network {m : model} (h : Reachable m) :
    m.conn9001 = none ∧ m.conn9002 = none ∧
    m.outputContent = "Welcome to the TUI!" ∧
    (∀ msg r, Update m msg = some r → r.sent = []) := by
  obtain ⟨-, n1, n2, n3⟩ := reachable_inv h
  refine ⟨n1, n2, n3, ?_⟩
  intro msg r hu
  exact ((update_preserve hu).2.2.1 n1).2

/-- Witness for C10 at the initial model. -/
theorem init_value_receiver_no_network_witness :
    initialModel.conn9001 = none ∧ initialModel.conn9002 = none ∧
    initialModel.outputContent = "Welcome to the TUI!" ∧
    (∀ msg r, Update initialModel msg = some r → r.sent = []) :=
  init_value_receiver_no_network Reachable.init

/-- Claim C2 (code bug): with the Commands pane focused and the cursor on
"Cmd 2" — a state reached from the initial model by tab, tab, down — the
claim says enter writes "Cmd 2\n" on the write connection; but `Init`'s
value receiver leaves `conn9001` nil in the event loop, so the keypress
writes nothing (and does not quit).  The last conjunct shows the intended
behavior: were `conn9001` present, the same keypress would send exactly
"Cmd 2\n" and leave the process running. -/
theorem enter_dispatch_never_writes :
    ((run initialModel [Msg.key "tab", Msg.key "tab", Msg.key "down"]).map fun m =>
      (m.focusIndex, m.conn9001,
        (m.topPanes.get? m.focusIndex).map fun p =>
          (p.isMenu, (p.items.items.get? p.items.index).map menuItem.title)))
      = some (2, none, some (false, some "Cmd 2")) ∧
    ((run initialModel [Msg.key "tab", Msg.key "tab", Msg.key "down"]).bind fun m =>
      (Update m (Msg.key "enter")).map fun r => (r.sent, r.quit)) = some ([], false) ∧
    ((run initialModel [Msg.key "tab", Msg.key "tab", Msg.key "down"]).bind fun m =>
      (Update { m with conn9001 := some { writeErr := none } } (Msg.key "enter")).map
        fun r => (r.sent, r.quit)) = some (["Cmd 2\n"], false) := by
  decide

/-- Claim C5 (code bug): pressing space while the output pane is focused —
reached from the initial model by four tabs — panics: line 245 of vis.go
indexes `topPanes[focusIndex]` with `focusIndex = len(topPanes)` outside
the bounds guard, instead of being the silent no-op the claim states. -/
theorem space_on_output_pane_panics :
    ((run initialModel (List.replicate 4 (Msg.key "tab"))).map
      model.outputPaneFocused) = some true ∧
    run initialModel (List.replicate 4 (Msg.key "tab") ++ [Msg.key " "]) = none := by
  decide

/-- Claim C6: when a non-menu (command) pane is focused with its cursor on
the "Exit" item, pressing enter returns `tea.Quit` — terminating the
process — and nothing is written to the write connection by that keypress,
whatever the connection state. -/
theorem enter_exit_quits {m : model} {p : pane} {it : menuItem}
    (hp : m.topPanes.get? m.focusIndex = some p) (hmenu : p.isMenu = false)
    (hit : p.items.items.get? p.items.index = some it) (hx : it.title = "Exit") :
    Update m (Msg.key "enter") = some ⟨m, [], true⟩ := by
  rw [List.get?_eq_getElem?] at hp hit
  simp [Update, hp, hmenu, hit, hx]

/-- The item list of the program's Commands pane. -/
def commandsItems : List menuItem :=
  [⟨"Cmd 1", "", false⟩, ⟨"Cmd 2", "", false⟩, ⟨"Cmd 3", "", false⟩, ⟨"Exit", "", false⟩]

/-- The Commands list with the cursor moved to "Exit". -/
def commandsListAtExit : ListModel :=
  { title := "Commands", items := commandsItems, index := 3, width := 20,
    height := 4, delegateFocused := true }

/-- The Commands pane, focused, cursor on "Exit". -/
def commandsPaneAtExit : pane :=
  { title := "Commands", items := commandsListAtExit, isMenu := false, focused := true }

/-- The initial model with focus on the Commands pane and cursor on "Exit". -/
def exitScenarioModel : model :=
  { initialModel with
      focusIndex := 2
      topPanes := (initialModel.topPanes.set 2 commandsPaneAtExit) }

/-- Witness for C6 at the exit scenario state. -/
theorem enter_exit_quits_witness :
    exitScenarioModel.topPanes.get? exitScenarioModel.focusIndex = some commandsPaneAtExit ∧
    commandsPaneAtExit.isMenu = false ∧
    commandsPaneAtExit.items.items.get? commandsPaneAtExit.items.index =
      some ⟨"Exit", "", false⟩ ∧
    Update exitScenarioModel (Msg.key "enter") = some ⟨exitScenarioModel, [], true⟩ :=
  ⟨by decide, rfl, by decide,
    @enter_exit_quits exitScenarioModel commandsPaneAtExit ⟨"Exit", "", false⟩
      (by decide) rfl (by decide) rfl⟩

/-- Claim C7: a confirm keypress on a focused command pane with the write
connection present is non-fatal whatever the write outcome: on a failed
write the error text is appended to the output content and NOTHING else
changes (focus, flags, cursors, items are those of `m`); on a successful
write the model — in particular the output buffer — is unchanged and
exactly the label plus newline is sent. -/
theorem write_outcome_atomic {m : model} {p : pane} {it : menuItem} {w : Option String}
    (hp : m.topPanes.get? m.focusIndex = some p) (hmenu : p.isMenu = false)
    (hit : p.items.items.get? p.items.index = some it) (hx : ¬it.title = "Exit")
    (hc : m.conn9001 = some { writeErr := w }) :
    Update m (Msg.key "enter") = some
      ⟨(match w with
        | some e => { m with outputContent := m.outputContent ++ "\nError sending command: " ++ e }
        | none => m),
       (match w with | none => [it.title ++ "\n"] | some _ => []),
       false⟩ := by
  have hfwd : ∀ m' : model, forwardFocused m' (some "enter") = m' :=
    fun m' => forwardFocused_id (by decide) (by decide)
  rw [List.get?_eq_getElem?] at hp hit
  cases w with
  | none => simp [Update, hp, hmenu, hit, hx, hc, hfwd]
  | some e => simp [Update, hp, hmenu, hit, hx, hc, hfwd]

/-- The Commands list with the cursor on "Cmd 2". -/
def commandsListAtCmd2 : ListModel :=
  { title := "Commands", items := commandsItems, index := 1, width := 20,
    height := 4, delegateFocused := true }

/-- The Commands pane, focused, cursor on "Cmd 2". -/
def commandsPaneAtCmd2 : pane :=
  { title := "Commands", items := commandsListAtCmd2, isMenu := false, focused := true }

/-- A state with the Commands pane focused, cursor on "Cmd 2", and a write
connection whose next write fails. -/
def failingWriteModel : model :=
  { initialModel with
      focusIndex := 2
      topPanes := (initialModel.topPanes.set 2 commandsPaneAtCmd2)
      conn9001 := some { writeErr := some "write: broken pipe" } }

/-- Witness for C7 at a concrete failing write. -/
theorem write_outcome_atomic_witness :
    failingWriteModel.topPanes.get? failingWriteModel.focusIndex = some commandsPaneAtCmd2 ∧
    commandsPaneAtCmd2.isMenu = false ∧
    commandsPaneAtCmd2.items.items.get? commandsPaneAtCmd2.items.index =
      some ⟨"Cmd 2", "", false⟩ ∧
    ¬("Cmd 2" = "Exit") ∧
    failingWriteModel.conn9001 = some { writeErr := some "write: broken pipe" } ∧
    Update failingWriteModel (Msg.key "enter") = some
      ⟨{ failingWriteModel with outputContent :=
          (failingWriteModel.outputContent ++ "\nError sending command: " ++ "write: broken pipe") },
       [], false⟩ :=
  ⟨by decide, rfl, by decide, by decide, rfl,
    @write_outcome_atomic failingWriteModel commandsPaneAtCmd2 ⟨"Cmd 2", "", false⟩
      (some "write: broken pipe") (by decide) rfl (by decide) (by decide) rfl⟩

/-! ### The output buffer: appends and renders -/

/-- The two operations that append to the output-pane content while the
program runs: `listenToServer` (vis.go line 183) appends a received
newline-terminated chunk verbatim, and the enter branch of `Update`
(vis.go line 270) appends a diagnostic on a failed write. -/
inductive OutEvent where
  | recv (line : String)
  | sendErr (e : String)
deriving DecidableEq, Repr

/-- One append to the output-pane content, transcribing
`SetContent(View() + message)` (line 183) and
`SetContent(View() + "\nError sending command: " + err.Error())` (line 270):
both place the new chunk after the entire previous content. -/
def outStep (b : String) (e : OutEvent) : String :=
  match e with
  | .recv line => b ++ line
  | .sendErr err => b ++ ("\nError sending command: " ++ err)

/-- The output-pane content after a sequence of appends; each render pass
reads exactly this string. -/
def outAfter (b : String) (es : List OutEvent) : String := es.foldl outStep b

lemma outAfter_extend (es : List OutEvent) :
    ∀ b : String, ∃ t, outAfter b es = b ++ t := by
  induction es with
  | nil => exact fun b => ⟨"", (String.append_empty b).symm⟩
  | cons e rest ih =>
    intro b
    obtain ⟨t, ht⟩ := ih (outStep b e)
    cases e with
    | recv line =>
      refine ⟨line ++ t, ?_⟩
      show outAfter (outStep b (OutEvent.recv line)) rest = b ++ (line ++ t)
      rw [ht]
      show b ++ line ++ t = b ++ (line ++ t)
      rw [String.append_assoc]
    | sendErr err =>
      refine ⟨("\nError sending command: " ++ err) ++ t, ?_⟩
      show outAfter (outStep b (OutEvent.sendErr err)) rest =
        b ++ (("\nError sending command: " ++ err) ++ t)
      rw [ht]
      show b ++ ("\nError sending command: " ++ err) ++ t =
        b ++ (("\nError sending command: " ++ err) ++ t)
      rw [String.append_assoc]

/-- Claim C3: across render passes the output-pane text only grows at the
end: the text a later pass reads extends the text any earlier pass read by
a (possibly empty) suffix — appends by the background reader and by the
send-error path never reorder, truncate, or drop earlier content. -/
theorem output_append_monotone (b : String) (es ext : List OutEvent) :
    ∃ t, outAfter b (es ++ ext) = outAfter b es ++ t := by
  show ∃ t, List.foldl outStep b (es ++ ext) = outAfter b es ++ t
  rw [List.foldl_append]
  exact outAfter_extend ext (outAfter b es)

/-! ### Connection establishment -/

/-- What `connectToServer` (vis.go lines 161-173) leaves behind: the two
connection fields, the addresses dialed, and whether the background
listener was started. -/
structure ConnectResult where
  conn9001 : Option Conn
  conn9002 : Option Unit
  attempts : List String
  listens : Bool
deriving DecidableEq, Repr

/-- `connectToServer` (vis.go lines 161-173), with the two dial outcomes as
inputs.  It dials 9001 first; a failure there is only logged to stderr —
there is NO early return, so 9002 is dialed regardless.  Only a failure on
9002 returns early, skipping `go listenToServer`. -/
def connectToServer (d1 : Option Conn) (d2 : Option Unit) : ConnectResult :=
  let r1 : ConnectResult :=
    { conn9001 := d1, conn9002 := none, attempts := [port9001], listens := false }
  let r2 : ConnectResult := { r1 with
    conn9002 := d2
    attempts := (r1.attempts ++ [port9002]) }
  match d2 with
  | none => r2
  | some _ => { r2 with listens := true }

/-- Claim C4, counterexample: with the write dial failing and the read dial
succeeding, `connectToServer` still attempts the read connection — refuting
"whenever the write-connection attempt fails, the read connection is not
attempted at all".  Moreover in the resulting degraded state a confirm
keypress surfaces no error: it appends nothing to the output content (shown
in the amended theorem). -/
theorem connect_counterexample :
    (connectToServer none (some ())).conn9001 = none ∧
    port9002 ∈ (connectToServer none (some ())).attempts ∧
    (connectToServer none (some ())).attempts = [port9001, port9002] := by
  decide

/-- Claim C4 (amended): `connectToServer` dials the write connection first
and the read connection second, and dials the read connection regardless of
the write outcome (a write failure is only logged to stderr); the listener
runs exactly when the read dial succeeds.  In the degraded state with no
write connection, a confirm keypress on a command pane is a SILENT no-op:
nothing is sent, nothing is appended to the output content, no quit. -/
theorem connect_order_degraded {m : model} {p : pane} {it : menuItem}
    (d1 : Option Conn) (d2 : Option Unit)
    (hp : m.topPanes.get? m.focusIndex = some p) (hmenu : p.isMenu = false)
    (hit : p.items.items.get? p.items.index = some it) (hx : ¬it.title = "Exit")
    (hc : m.conn9001 = none) :
    (connectToServer d1 d2).attempts = [port9001, port9002] ∧
    (connectToServer d1 d2).listens = d2.isSome ∧
    Update m (Msg.key "enter") = some ⟨m, [], false⟩ := by
  refine ⟨?_, ?_, ?_⟩
  · cases d2 <;> rfl
  · cases d2 <;> rfl
  · have hfwd : forwardFocused m (some "enter") = m :=
      forwardFocused_id (by decide) (by decide)
    rw [List.get?_eq_getElem?] at hp hit
    simp [Update, hp, hmenu, hit, hx, hc, hfwd]

/-- A state with the Commands pane focused on "Cmd 2" and no connections. -/
def degradedModel : model :=
  { initialModel with
      focusIndex := 2
      topPanes := (initialModel.topPanes.set 2 commandsPaneAtCmd2) }

/-- Witness for the amended C4: write dial fails, read dial succeeds, and a
state with the Commands pane focused on "Cmd 2" and no write connection. -/
theorem connect_order_degraded_witness :
    degradedModel.topPanes.get? degradedModel.focusIndex = some commandsPaneAtCmd2 ∧
    commandsPaneAtCmd2.isMenu = false ∧
    commandsPaneAtCmd2.items.items.get? commandsPaneAtCmd2.items.index =
      some ⟨"Cmd 2", "", false⟩ ∧
    ¬("Cmd 2" = "Exit") ∧ degradedModel.conn9001 = none ∧
    (connectToServer none (some ())).attempts = [port9001, port9002] ∧
    (connectToServer none (some ())).listens = (some ()).isSome ∧
    Update degradedModel (Msg.key "enter") = some ⟨degradedModel, [], false⟩ := by
  have h := @connect_order_degraded degradedModel commandsPaneAtCmd2 ⟨"Cmd 2", "", false⟩
    none (some ()) (by decide) rfl (by decide) (by decide) rfl
  exact ⟨by decide, rfl, by decide, by decide, rfl, h.1, h.2.1, h.2.2⟩

/-! ### The custom delegate renderer -/

/-- One display row of `customDelegate.Render` (vis.go lines 76-92): the
checkbox selector, blanked when the list title is "Commands"; the cursor
marker, shown when the delegate is focused and the loop index is the list
index; then `"%s %s %s"` of cursor, selector, title. -/
def renderItemRow (l : ListModel) (i : Nat) (it : menuItem) : String :=
  let selector := if it.selected then "[x]" else "[ ]"
  let selector := if l.title = "Commands" then "" else selector
  let cursor := if i = l.index ∧ l.delegateFocused then ">" else " "
  cursor ++ " " ++ selector ++ " " ++ it.title

/-- `customDelegate.Render` (vis.go lines 67-94): the loop over
`m.Items()` emits one row per item (every item of this program is a
`menuItem`, so the non-`menuItem` `continue` never fires). -/
def delegateRender (l : ListModel) : List String :=
  l.items.enum.map fun pr => renderItemRow l pr.1 pr.2

/-- Claim C8: for every pane of this program (where being the "Commands"
pane is exactly being the non-menu pane, and the delegate's focus flag
matches the pane's), the renderer emits exactly one row per item; row `i`
carries the cursor marker iff the pane is focused and `i` is the cursor,
and carries a checkbox (`[x]`/`[ ]` by selection) iff the pane is a menu —
non-menu (command) panes omit the checkbox on every row. -/
theorem render_contract {p : pane}
    (hsync : p.items.delegateFocused = p.focused)
    (htitle : (p.items.title = "Commands") ↔ p.isMenu = false) :
    (delegateRender p.items).length = p.items.items.length ∧
    (∀ i it, p.items.items.get? i = some it →
      (delegateRender p.items).get? i = some
        ((if p.focused = true ∧ i = p.items.index then ">" else " ") ++ " " ++
         (if p.isMenu = true then (if it.selected = true then "[x]" else "[ ]") else "") ++
         " " ++ it.title)) := by
  constructor
  · unfold delegateRender
    rw [List.length_map, List.enum_length]
  · intro i it hit
    rw [List.get?_eq_getElem?] at hit
    unfold delegateRender renderItemRow
    rw [List.get?_eq_getElem?, List.getElem?_map, List.getElem?_enum, hit]
    cases hm : p.isMenu <;> cases hf : p.focused <;>
      by_cases hi : i = p.items.index <;> cases hsel : it.selected <;>
        simp_all [hsync]

/-- A focused two-item menu list like the program's Pane 1. -/
def renderWitnessList : ListModel :=
  { title := "Pane 1", items := [⟨"Option A", "", true⟩, ⟨"Option B", "", false⟩],
    index := 1, width := 20, height := 2, delegateFocused := true }

/-- A focused menu pane like the program's Pane 1, with one item selected. -/
def renderWitnessPane : pane :=
  { title := "Pane 1", items := renderWitnessList, isMenu := true, focused := true }

/-- Witness for C8 at a concrete menu pane. -/
theorem render_contract_witness :
    renderWitnessPane.items.delegateFocused = renderWitnessPane.focused ∧
    ((renderWitnessPane.items.title = "Commands") ↔ renderWitnessPane.isMenu = false) ∧
    ((delegateRender renderWitnessPane.items).length =
        renderWitnessPane.items.items.length ∧
     (∀ i it, renderWitnessPane.items.items.get? i = some it →
       (delegateRender renderWitnessPane.items).get? i = some
         ((if renderWitnessPane.focused = true ∧ i = renderWitnessPane.items.index
             then ">" else " ") ++ " " ++
          (if renderWitnessPane.isMenu = true
             then (if it.selected = true then "[x]" else "[ ]") else "") ++
          " " ++ it.title))) :=
  ⟨rfl, by decide, render_contract rfl (by decide)⟩

/-! ### Lock discipline around the shared output buffer

`model.mu` is the single mutex of the program.  Each function that touches
the output-pane content is transcribed as its sequence of mutex and buffer
operations, in source order; a small interpreter tracks the lock depth at
each buffer access. -/

/-- Mutex and buffer operations: `mu.Lock()`, `mu.Unlock()`, reading the
content (`outputPane.View()`), appending via `outputPane.SetContent(...)`. -/
inductive BufOp where
  | lock
  | unlock
  | readBuf
  | appendBuf
deriving DecidableEq, Repr

/-- Annotate every buffer access of an operation sequence with the number
of locks held when it runs. -/
def annotateAccesses : List BufOp → Nat → List (BufOp × Nat)
  | [], _ => []
  | BufOp.lock :: rest, d => annotateAccesses rest (d + 1)
  | BufOp.unlock :: rest, d => annotateAccesses rest (d - 1)
  | op :: rest, d => (op, d) :: annotateAccesses rest d

/-- Whether every buffer access in the sequence runs with the mutex held. -/
def allAccessesLocked (ops : List BufOp) : Bool :=
  (annotateAccesses ops 0).all fun pr => decide (0 < pr.2)

/-- The loop body of `listenToServer` (vis.go lines 182-184):
`mu.Lock(); SetContent(View() + message); mu.Unlock()` — a read and an
append inside the lock. -/
def listenToServerLineOps : List BufOp :=
  [BufOp.lock, BufOp.readBuf, BufOp.appendBuf, BufOp.unlock]

/-- `addToOutputPane` (vis.go lines 188-192), defined but never called:
same locked read-append. -/
def addToOutputPaneOps : List BufOp :=
  [BufOp.lock, BufOp.readBuf, BufOp.appendBuf, BufOp.unlock]

/-- The send-error append in the enter branch of `Update` (vis.go line 270):
`SetContent(View() + "\nError sending command: " + ...)` with no locking. -/
def sendErrorOps : List BufOp :=
  [BufOp.readBuf, BufOp.appendBuf]

/-- The render pass (vis.go lines 311-316): `View` reads
`outputPane.View()` with no locking. -/
def viewRenderOps : List BufOp :=
  [BufOp.readBuf]

/-- Claim C9, counterexample: the send-error append and the render-pass
read access the shared output buffer with a lock depth of zero — refuting
"every access to the shared output buffer happens while holding the single
mutual-exclusion lock". -/
theorem buffer_access_lock_counterexample :
    allAccessesLocked sendErrorOps = false ∧
    allAccessesLocked viewRenderOps = false ∧
    annotateAccesses sendErrorOps 0 = [(BufOp.readBuf, 0), (BufOp.appendBuf, 0)] := by
  decide

/-- Claim C9 (amended): only the background reader's appends (and the
unused `addToOutputPane` helper) run under the mutex; the send-error append
in `Update` and the render-pass read of the buffer hold no lock. -/
theorem buffer_access_lock_discipline :
    allAccessesLocked listenToServerLineOps = true ∧
    allAccessesLocked addToOutputPaneOps = true ∧
    allAccessesLocked sendErrorOps = false ∧
    allAccessesLocked viewRenderOps = false := by
  decide
